import Mathlib

/-!
Verification of the clob-client-go order engine, transport, signing and
streaming subsystems against a shallow embedding of the Go source.

Conventions of the embedding:
* `shopspring/decimal` values are exact decimal numbers; we model them as
  rationals (`ℚ`) with exact arithmetic, which is faithful on every value a
  `decimal.Decimal` can hold.
* Go machine integers are modelled as `ℤ`/`ℕ`; byte strings as `List ℕ`.
* Fallible Go functions returning `(T, error)` are modelled as `Except String T`
  (or `Option` where only success/failure matters).
-/

namespace Clob

instance {ε α : Type} [DecidableEq ε] [DecidableEq α] : DecidableEq (Except ε α) := fun x y =>
  match x, y with
  | .ok a, .ok b =>
      if h : a = b then .isTrue (by rw [h]) else .isFalse (by intro hh; cases hh; exact h rfl)
  | .error a, .error b =>
      if h : a = b then .isTrue (by rw [h]) else .isFalse (by intro hh; cases hh; exact h rfl)
  | .ok _, .error _ => .isFalse (by intro hh; cases hh)
  | .error _, .ok _ => .isFalse (by intro hh; cases hh)

/-! ## Decimal arithmetic (shopspring/decimal semantics) -/

/-- Integer truncation toward zero, the semantics of `decimal.Truncate(0)`. -/
def ztrunc (q : ℚ) : ℤ := if 0 ≤ q then ⌊q⌋ else ⌈q⌉

/-- `d.Truncate(places)`: truncates off digits after `places` decimal places
toward zero, without rounding (shopspring `Decimal.Truncate`). -/
def decTruncate (d : ℚ) (places : ℕ) : ℚ :=
  ((ztrunc (d * 10 ^ places) : ℤ) : ℚ) / 10 ^ places

/-- `d.Round(places)`: rounds to `places` decimal places, half away from zero
(shopspring `Decimal.Round`).  All call sites in the repository pass a
non-negative `places`. -/
def decRound (d : ℚ) (places : ℕ) : ℚ :=
  if 0 ≤ d then ((⌊d * 10 ^ places + 1/2⌋ : ℤ) : ℚ) / 10 ^ places
  else ((⌈d * 10 ^ places - 1/2⌉ : ℤ) : ℚ) / 10 ^ places

/-! ## Rounding engine (internal/orderbuilder/rounding.go) -/

/-- `RoundConfig` from rounding.go: decimal places for price, size and amount. -/
structure RoundConfig where
  Price : ℕ
  Size : ℕ
  Amount : ℕ
  deriving DecidableEq

/-- The `RoundingConfigs` map from rounding.go, as a lookup function. -/
def RoundingConfigs (tickSize : String) : Option RoundConfig :=
  if tickSize = "0.1" then some ⟨1, 2, 3⟩
  else if tickSize = "0.01" then some ⟨2, 2, 4⟩
  else if tickSize = "0.001" then some ⟨3, 2, 5⟩
  else if tickSize = "0.0001" then some ⟨4, 2, 6⟩
  else none

/-- `GetRoundConfig` from rounding.go. -/
def GetRoundConfig (tickSize : String) : Except String RoundConfig :=
  match RoundingConfigs tickSize with
  | some rc => .ok rc
  | none => .error ("orderbuilder: unsupported tick size: " ++ tickSize)

/-- `RoundDown` from rounding.go: truncation toward zero. -/
def RoundDown (d : ℚ) (places : ℕ) : ℚ := decTruncate d places

/-- `RoundNormal` from rounding.go: round half away from zero. -/
def RoundNormal (d : ℚ) (places : ℕ) : ℚ := decRound d places

/-- The integer value computed by `ToTokenDecimals`: `d * 10^6` truncated to an
integer (`USDCDecimals = 6`). -/
def ToTokenDecimalsInt (d : ℚ) : ℤ := ztrunc (d * 10 ^ 6)

/-- `ToTokenDecimals` from rounding.go: `d.Mul(10^6).Truncate(0).String()`.
`Decimal.String` of an integer-valued decimal prints the plain integer, which
coincides with `toString` on `ℤ`. -/
def ToTokenDecimals (d : ℚ) : String := toString (ToTokenDecimalsInt d)

/-! ## Limit order amounts (internal/orderbuilder/builder.go) -/

/-- `CalculateLimitOrderAmounts` from builder.go. -/
def CalculateLimitOrderAmounts (side : String) (price size : ℚ) (tickSize : String) :
    Except String (String × String) :=
  match GetRoundConfig tickSize with
  | .error e => .error e
  | .ok rc =>
    let rawPrice := RoundNormal price rc.Price
    let rawSize := RoundDown size rc.Size
    let truncScale := rc.Price + rc.Size
    if side = "BUY" then
      let rawMakerAmt := decTruncate (rawSize * rawPrice) truncScale
      .ok (ToTokenDecimals rawMakerAmt, ToTokenDecimals rawSize)
    else if side = "SELL" then
      let rawTakerAmt := decTruncate (rawSize * rawPrice) truncScale
      .ok (ToTokenDecimals rawSize, ToTokenDecimals rawTakerAmt)
    else
      .error ("orderbuilder: invalid side: " ++ side)

/-! Spec-side definitions for claim C1, written from the claim's words, to be
compared with the source-side `CalculateLimitOrderAmounts`. -/

/-- Spec wording: round half-up at `places` decimals.  "Half-up" is the common
(Java `HALF_UP`) convention: ties round away from zero. -/
def specHalfUp (q : ℚ) (places : ℕ) : ℚ :=
  if q < 0 then -(((⌊(-q) * 10 ^ places + 1/2⌋ : ℤ) : ℚ) / 10 ^ places)
  else ((⌊q * 10 ^ places + 1/2⌋ : ℤ) : ℚ) / 10 ^ places

/-- Spec wording: truncate toward zero at `places` decimals. -/
def specTruncate (q : ℚ) (places : ℕ) : ℚ :=
  if q < 0 then -(((⌊(-q) * 10 ^ places⌋ : ℤ) : ℚ) / 10 ^ places)
  else ((⌊q * 10 ^ places⌋ : ℤ) : ℚ) / 10 ^ places

/-- Spec wording: convert to base units: `× 10^6`, truncated to an integer,
rendered as a string. -/
def specBaseUnits (q : ℚ) : String :=
  toString (if q * 10 ^ 6 < 0 then -(⌊-(q * 10 ^ 6)⌋) else ⌊q * 10 ^ 6⌋)

/-- The amounts of claim C1, written from the claim's words: round price
half-up at `priceDec`, truncate size toward zero at `sizeDec`; for BUY
`makerAmount = truncate(size × price, priceDec + sizeDec)` and
`takerAmount = size`; for SELL the roles are swapped; both converted to base
units. -/
def specLimitAmounts (priceDec sizeDec : ℕ) (side : String) (price size : ℚ) :
    String × String :=
  let p := specHalfUp price priceDec
  let s := specTruncate size sizeDec
  let collateral := specTruncate (s * p) (priceDec + sizeDec)
  if side = "BUY" then (specBaseUnits collateral, specBaseUnits s)
  else (specBaseUnits s, specBaseUnits collateral)

/-! Agreement lemmas between the spec-side and source-side rounding. -/

theorem ztrunc_eq_sign_floor (q : ℚ) :
    ztrunc q = if q < 0 then -⌊-q⌋ else ⌊q⌋ := by
  unfold ztrunc
  rcases lt_trichotomy q 0 with h | h | h
  · simp [not_le.mpr h, h, Int.floor_neg]
  · simp [h]
  · simp [le_of_lt h, not_lt.mpr (le_of_lt h)]

theorem decTruncate_eq_specTruncate (q : ℚ) (p : ℕ) :
    decTruncate q p = specTruncate q p := by
  unfold decTruncate specTruncate
  rw [ztrunc_eq_sign_floor]
  have hp : (0:ℚ) < 10 ^ p := by positivity
  by_cases h : q < 0
  · have : q * 10 ^ p < 0 := mul_neg_of_neg_of_pos h hp
    simp [h, this, neg_mul, neg_div]
  · have : ¬ q * 10 ^ p < 0 := by
      push_neg at h ⊢
      exact mul_nonneg h (le_of_lt hp)
    simp [h, this]

theorem decRound_eq_specHalfUp (q : ℚ) (p : ℕ) :
    decRound q p = specHalfUp q p := by
  unfold decRound specHalfUp
  have hp : (0:ℚ) < 10 ^ p := by positivity
  rcases lt_trichotomy q 0 with h | h | h
  · have hnle : ¬ 0 ≤ q := not_le.mpr h
    have hceil : (⌈q * 10 ^ p - 1/2⌉ : ℤ) = -⌊-(q * 10 ^ p - 1/2)⌋ := by
      rw [Int.floor_neg]; ring
    have harg : -(q * 10 ^ p - 1/2) = (-q) * 10 ^ p + 1/2 := by ring
    rw [hceil, harg]
    simp [hnle, h, neg_div]
  · simp [h]
  · have hle : 0 ≤ q := le_of_lt h
    simp [hle, not_lt.mpr hle]

theorem toTokenDecimals_eq_specBaseUnits (q : ℚ) :
    ToTokenDecimals q = specBaseUnits q := by
  unfold ToTokenDecimals ToTokenDecimalsInt specBaseUnits
  rw [ztrunc_eq_sign_floor]

theorem calcLimit_eq_spec (side tickSize : String) (price size : ℚ) (rc : RoundConfig)
    (hside : side = "BUY" ∨ side = "SELL")
    (hrc : RoundingConfigs tickSize = some rc) :
    CalculateLimitOrderAmounts side price size tickSize =
      .ok (specLimitAmounts rc.Price rc.Size side price size) := by
  unfold CalculateLimitOrderAmounts GetRoundConfig
  rw [hrc]
  rcases hside with h | h <;> subst h <;>
    simp [specLimitAmounts, RoundDown, RoundNormal,
      decTruncate_eq_specTruncate, decRound_eq_specHalfUp,
      toTokenDecimals_eq_specBaseUnits]

/-- Evaluation lemma: the cross-implementation vector of claim C1. -/
theorem calcLimit_vector :
    CalculateLimitOrderAmounts "BUY" (56/100 : ℚ) (2104/100 : ℚ) "0.01" =
      .ok ("11782400", "21040000") := by
  have h1 : RoundNormal (56/100 : ℚ) 2 = 56/100 := by unfold RoundNormal decRound; norm_num
  have h2 : RoundDown (2104/100 : ℚ) 2 = 2104/100 := by
    unfold RoundDown decTruncate ztrunc; norm_num
  have h3 : decTruncate ((2104/100 : ℚ) * (56/100)) 4 = 117824/10000 := by
    unfold decTruncate ztrunc; norm_num
  have h4 : ToTokenDecimals (117824/10000 : ℚ) = "11782400" := by
    unfold ToTokenDecimals ToTokenDecimalsInt ztrunc
    norm_num
    decide
  have h5 : ToTokenDecimals (2104/100 : ℚ) = "21040000" := by
    unfold ToTokenDecimals ToTokenDecimalsInt ztrunc
    norm_num
    decide
  have hcfg : GetRoundConfig "0.01" = .ok ⟨2, 2, 4⟩ := rfl
  unfold CalculateLimitOrderAmounts
  rw [hcfg]
  simp only [reduceIte]
  rw [h1, h2, h3, h4, h5]

/-- C1: for every side in {BUY, SELL}, every price and size, and each of the
four recognized tick sizes, `CalculateLimitOrderAmounts` returns exactly the
amounts described by the spec (`specLimitAmounts`): price rounded half-up at
the tick's price decimals, size truncated toward zero at its size decimals,
for BUY `makerAmount = truncate(size×price, priceDecimals+sizeDecimals)` and
`takerAmount = size` (SELL swaps the roles), both converted to base units
(`×10^6`, truncated to an integer string); in particular tick=0.01, BUY,
price=0.56, size=21.04 yields maker "11782400" and taker "21040000". -/
theorem C1_calculateLimitOrderAmounts (side tickSize : String) (price size : ℚ)
    (hside : side = "BUY" ∨ side = "SELL")
    (htick : tickSize ∈ ["0.1", "0.01", "0.001", "0.0001"]) :
    (∃ rc, RoundingConfigs tickSize = some rc ∧
      CalculateLimitOrderAmounts side price size tickSize =
        .ok (specLimitAmounts rc.Price rc.Size side price size)) ∧
    CalculateLimitOrderAmounts "BUY" (56/100 : ℚ) (2104/100 : ℚ) "0.01" =
      .ok ("11782400", "21040000") := by
  refine ⟨?_, calcLimit_vector⟩
  have hms : tickSize = "0.1" ∨ tickSize = "0.01" ∨ tickSize = "0.001" ∨
      tickSize = "0.0001" := by simpa using htick
  rcases hms with rfl | rfl | rfl | rfl
  · exact ⟨⟨1, 2, 3⟩, rfl, calcLimit_eq_spec _ _ _ _ _ hside rfl⟩
  · exact ⟨⟨2, 2, 4⟩, rfl, calcLimit_eq_spec _ _ _ _ _ hside rfl⟩
  · exact ⟨⟨3, 2, 5⟩, rfl, calcLimit_eq_spec _ _ _ _ _ hside rfl⟩
  · exact ⟨⟨4, 2, 6⟩, rfl, calcLimit_eq_spec _ _ _ _ _ hside rfl⟩

/-- Witness for C1 at a concrete input. -/
theorem C1_calculateLimitOrderAmounts_witness :
    ((∃ rc, RoundingConfigs "0.01" = some rc ∧
      CalculateLimitOrderAmounts "BUY" (56/100 : ℚ) (2104/100 : ℚ) "0.01" =
        .ok (specLimitAmounts rc.Price rc.Size "BUY" (56/100 : ℚ) (2104/100 : ℚ))) ∧
    CalculateLimitOrderAmounts "BUY" (56/100 : ℚ) (2104/100 : ℚ) "0.01" =
      .ok ("11782400", "21040000")) :=
  C1_calculateLimitOrderAmounts "BUY" "0.01" (56/100) (2104/100)
    (Or.inl rfl) (by decide)

/-! ## Price validation (internal/orderbuilder/builder.go ValidatePrice) -/

def isDigitCh (c : Char) : Bool := decide ('0' ≤ c ∧ c ≤ '9')

def digitsVal (cs : List Char) : ℕ :=
  cs.foldl (fun n c => n * 10 + (c.toNat - '0'.toNat)) 0

/-- Model of `decimal.NewFromString` on plain decimal strings
`[sign]digits[.digits]`.  Exponent notation, which no tick-size string in this
repository uses, is omitted. -/
def parseUnsignedDecimal (cs : List Char) : Option ℚ :=
  let ip := cs.takeWhile isDigitCh
  let rest := cs.dropWhile isDigitCh
  if ip.isEmpty then none
  else
    match rest with
    | [] => some (digitsVal ip)
    | c :: frac =>
        if c = '.' then
          if frac.isEmpty || !(frac.all isDigitCh) then none
          else some ((digitsVal ip : ℚ) + (digitsVal frac : ℚ) / 10 ^ frac.length)
        else none

def parseDecimal (s : String) : Option ℚ :=
  match s.toList with
  | [] => none
  | c :: rest =>
      if c = '-' then (parseUnsignedDecimal rest).map (fun q => -q)
      else if c = '+' then parseUnsignedDecimal rest
      else parseUnsignedDecimal (c :: rest)

/-- `ValidatePrice` from builder.go: price must satisfy
`tick ≤ price ≤ 1 - tick`.  The Go error message interpolates the offending
price and the range bounds; rendering those is irrelevant to success/failure
and is abbreviated here. -/
def ValidatePrice (price : ℚ) (tickSize : String) : Except String Unit :=
  match parseDecimal tickSize with
  | none => .error ("orderbuilder: invalid tick size: " ++ tickSize)
  | some tick =>
    if price < tick ∨ price > 1 - tick then
      .error "orderbuilder: price outside valid range"
    else
      .ok ()

theorem validatePrice_iff (price tick : ℚ) (ts : String)
    (hp : parseDecimal ts = some tick) :
    (ValidatePrice price ts = .ok () ↔ tick ≤ price ∧ price ≤ 1 - tick) ∧
    ((∃ e, ValidatePrice price ts = .error e) ↔ (price < tick ∨ 1 - tick < price)) := by
  unfold ValidatePrice
  rw [hp]
  dsimp only
  by_cases hc : price < tick ∨ price > 1 - tick
  · rw [if_pos hc]
    refine ⟨⟨fun h => absurd h (by simp), fun h => ?_⟩, ⟨fun _ => hc, fun _ => ⟨_, rfl⟩⟩⟩
    rcases hc with hlt | hgt
    · exact absurd h.1 (not_le.mpr hlt)
    · exact absurd h.2 (not_le.mpr hgt)
  · rw [if_neg hc]
    have hand := not_or.mp hc
    refine ⟨⟨fun _ => ⟨not_lt.mp hand.1, not_lt.mp hand.2⟩, fun _ => rfl⟩,
      ⟨fun he => ?_, fun h => absurd h hc⟩⟩
    obtain ⟨e, he⟩ := he
    exact absurd he (by simp)

theorem parse_tick_01 : parseDecimal "0.1" = some (1/10) := by
  have h0 : parseDecimal "0.1" =
      some (((digitsVal ['0'] : ℕ) : ℚ) + ((digitsVal ['1'] : ℕ) : ℚ) / 10 ^ (1:ℕ)) := rfl
  rw [h0]
  norm_num [digitsVal, (by decide : Char.toNat '1' - Char.toNat '0' = 1)]

theorem parse_tick_001 : parseDecimal "0.01" = some (1/100) := by
  have h0 : parseDecimal "0.01" =
      some (((digitsVal ['0'] : ℕ) : ℚ) + ((digitsVal ['0', '1'] : ℕ) : ℚ) / 10 ^ (2:ℕ)) := rfl
  rw [h0]
  norm_num [digitsVal, (by decide : Char.toNat '1' - Char.toNat '0' = 1)]

theorem parse_tick_0001 : parseDecimal "0.001" = some (1/1000) := by
  have h0 : parseDecimal "0.001" =
      some (((digitsVal ['0'] : ℕ) : ℚ) +
        ((digitsVal ['0', '0', '1'] : ℕ) : ℚ) / 10 ^ (3:ℕ)) := rfl
  rw [h0]
  norm_num [digitsVal, (by decide : Char.toNat '1' - Char.toNat '0' = 1)]

theorem parse_tick_00001 : parseDecimal "0.0001" = some (1/10000) := by
  have h0 : parseDecimal "0.0001" =
      some (((digitsVal ['0'] : ℕ) : ℚ) +
        ((digitsVal ['0', '0', '0', '1'] : ℕ) : ℚ) / 10 ^ (4:ℕ)) := rfl
  rw [h0]
  norm_num [digitsVal, (by decide : Char.toNat '1' - Char.toNat '0' = 1)]

/-- C2: for every price and every recognized tick size, `ValidatePrice`
succeeds exactly when `tick ≤ price ≤ 1 - tick` (boundaries included) and
returns an error exactly when the price is strictly below `tick` or strictly
above `1 - tick`. -/
theorem C2_validatePrice (price tick : ℚ) (tickSize : String)
    (h : (tickSize = "0.1" ∧ tick = 1/10) ∨ (tickSize = "0.01" ∧ tick = 1/100) ∨
         (tickSize = "0.001" ∧ tick = 1/1000) ∨ (tickSize = "0.0001" ∧ tick = 1/10000)) :
    (ValidatePrice price tickSize = .ok () ↔ tick ≤ price ∧ price ≤ 1 - tick) ∧
    ((∃ e, ValidatePrice price tickSize = .error e) ↔
      (price < tick ∨ 1 - tick < price)) := by
  rcases h with ⟨rfl, rfl⟩ | ⟨rfl, rfl⟩ | ⟨rfl, rfl⟩ | ⟨rfl, rfl⟩
  · exact validatePrice_iff _ _ _ parse_tick_01
  · exact validatePrice_iff _ _ _ parse_tick_001
  · exact validatePrice_iff _ _ _ parse_tick_0001
  · exact validatePrice_iff _ _ _ parse_tick_00001

/-- Witness for C2 at the boundary price `price = tick = 0.1`. -/
theorem C2_validatePrice_witness :
    (ValidatePrice (1/10 : ℚ) "0.1" = .ok () ↔
      (1/10 : ℚ) ≤ 1/10 ∧ (1/10 : ℚ) ≤ 1 - 1/10) ∧
    ((∃ e, ValidatePrice (1/10 : ℚ) "0.1" = .error e) ↔
      ((1/10 : ℚ) < 1/10 ∨ 1 - 1/10 < (1/10 : ℚ))) :=
  C2_validatePrice (1/10) (1/10) "0.1" (Or.inl ⟨rfl, rfl⟩)

/-! ## Resilient transport (package transport, `do` / `backoff` /
`parseRetryAfter` / `isRetryableError` / `isRetryableStatus`) -/

/-- Substring helpers modelling Go `strings.Contains`. -/
def charListStarts : List Char → List Char → Bool
  | _, [] => true
  | [], _ :: _ => false
  | a :: as, b :: bs => a == b && charListStarts as bs

def charListHasSub : List Char → List Char → Bool
  | [], pat => pat.isEmpty
  | a :: rest, pat => charListStarts (a :: rest) pat || charListHasSub rest pat

def strContains (s pat : String) : Bool := charListHasSub s.toList pat.toList

/-- The transport-level error classes distinguished by `isRetryableError`:
a `net.Error` timeout, a `net.DNSError` (with its `IsNotFound` flag), a
`net.OpError`, or any other error carrying a message. -/
inductive NetErr
  | timeout
  | dns (isNotFound : Bool)
  | opError
  | other (msg : String)
  deriving DecidableEq

/-- `isRetryableError` from the transport: timeouts, temporary DNS failures
(not NXDOMAIN), operational errors, and errors whose message mentions a
connection failure are retryable. -/
def isRetryableError : NetErr → Bool
  | .timeout => true
  | .dns isNotFound => !isNotFound
  | .opError => true
  | .other msg =>
      strContains msg "connection refused" || strContains msg "connection reset" ||
        strContains msg "broken pipe"

/-- `isRetryableStatus`: 429 and every 5xx status is retryable. -/
def isRetryableStatus (code : ℕ) : Bool := code == 429 || 500 ≤ code

/-- Go `strconv.Atoi`: optional sign, decimal digits, 64-bit signed range. -/
def atoi (s : String) : Option ℤ :=
  match s.toList with
  | [] => none
  | c :: rest =>
      let p : Bool × List Char :=
        if c = '-' then (true, rest)
        else if c = '+' then (false, rest)
        else (false, c :: rest)
      if p.2.isEmpty || !(p.2.all isDigitCh) then none
      else
        let v : ℤ := if p.1 then -(digitsVal p.2 : ℤ) else (digitsVal p.2 : ℤ)
        if v < -9223372036854775808 || 9223372036854775807 < v then none else some v

/-- `parseRetryAfter`: the `Retry-After` header value in seconds, or `0` when
the header is absent (`Header.Get` returns `""`), unparseable, or negative. -/
def parseRetryAfter (hdr : Option String) : ℤ :=
  match hdr with
  | none => 0
  | some val =>
      if val = "" then 0
      else
        match atoi val with
        | none => 0
        | some secs => if secs < 0 then 0 else secs

/-- The jitter factor `0.75 + rand.Float64()*0.5` for a random draw
`u ∈ [0,1)`. -/
def jitterFactor (u : ℚ) : ℚ := 3/4 + u * (1/2)

/-- Nanoseconds slept by `backoff`: the `Retry-After` seconds when positive,
otherwise `baseDelay × 2^attempt` truncated, capped at `maxDelay`, times the
jitter factor, truncated (`time.Duration(float64)` truncates toward zero; the
float64 arithmetic is exact on the durations involved). -/
def backoffDelayNs (baseDelay maxDelay : ℤ) (attempt : ℕ) (retryAfterSec : ℤ)
    (u : ℚ) : ℤ :=
  if 0 < retryAfterSec then retryAfterSec * 1000000000
  else
    ztrunc (((if maxDelay < ztrunc ((baseDelay : ℚ) * 2 ^ attempt) then maxDelay
      else ztrunc ((baseDelay : ℚ) * 2 ^ attempt)) : ℤ) * jitterFactor u)

/-- The outcome the environment hands one HTTP attempt: either a
transport-level error or a response with a status and optional Retry-After
header. -/
inductive AttemptOutcome
  | netE (e : NetErr)
  | resp (status : ℕ) (retryAfter : Option String)

/-- The failure recorded in `lastErr` inside `do`. -/
inductive LastErr
  | net (e : NetErr)
  | api (status : ℕ)
  deriving DecidableEq

/-- What `do` returns: a response handed back to the caller (any status that is
not 429/5xx, including 2xx and 404), a non-retryable transport error returned
immediately, or the final wrapped
`"request failed after %d attempts"` error. -/
inductive DoResult
  | success (status : ℕ)
  | immediateErr (e : NetErr)
  | exhausted (attempts : ℕ) (last : LastErr)
  deriving DecidableEq

/-- Instrumented run: the result, the number of attempts performed, and the
list of backoff waits (in ns) taken between attempts. -/
structure RunOut where
  result : DoResult
  attempts : ℕ
  waits : List ℤ

/-- The retry loop of `do`.  `fuel` is `maxRetries + 1 - attempt`; the Go
`for attempt := 0; attempt <= maxRetries` loop is modelled by structural
recursion on `fuel`.  `last` is the running `lastErr` (`none` initially; the
`.api 0` default below is unreachable because every iteration that falls
through sets it).  Context cancellation never fires in this model. -/
def doLoop (mr : ℕ) (b M : ℤ) (oc : ℕ → AttemptOutcome) (ju : ℕ → ℚ) :
    (fuel attempt : ℕ) → Option LastErr → RunOut
  | 0, attempt, last => ⟨.exhausted (mr + 1) (last.getD (.api 0)), attempt, []⟩
  | fuel + 1, attempt, _ =>
      match oc attempt with
      | .netE e =>
          if !isRetryableError e then ⟨.immediateErr e, attempt + 1, []⟩
          else if attempt < mr then
            let w := backoffDelayNs b M attempt 0 (ju attempt)
            let o := doLoop mr b M oc ju fuel (attempt + 1) (some (.net e))
            ⟨o.result, o.attempts, w :: o.waits⟩
          else doLoop mr b M oc ju fuel (attempt + 1) (some (.net e))
      | .resp status hdr =>
          if !isRetryableStatus status then ⟨.success status, attempt + 1, []⟩
          else if attempt < mr then
            let w := backoffDelayNs b M attempt (parseRetryAfter hdr) (ju attempt)
            let o := doLoop mr b M oc ju fuel (attempt + 1) (some (.api status))
            ⟨o.result, o.attempts, w :: o.waits⟩
          else doLoop mr b M oc ju fuel (attempt + 1) (some (.api status))

/-- `do` from the transport, instrumented. -/
def doRun (mr : ℕ) (b M : ℤ) (oc : ℕ → AttemptOutcome) (ju : ℕ → ℚ) : RunOut :=
  doLoop mr b M oc ju (mr + 1) 0 none

/-- An attempt outcome the transport classifies as retryable. -/
def retryableOutcome : AttemptOutcome → Bool
  | .netE e => isRetryableError e
  | .resp s _ => isRetryableStatus s

/-- The `lastErr` value an outcome leaves behind. -/
def lastErrOf : AttemptOutcome → LastErr
  | .netE e => .net e
  | .resp s _ => .api s

theorem doLoop_all_retryable (mr : ℕ) (b M : ℤ) (oc : ℕ → AttemptOutcome) (ju : ℕ → ℚ)
    (hall : ∀ i, retryableOutcome (oc i) = true) :
    ∀ (fuel attempt : ℕ) (last : Option LastErr), fuel + attempt = mr + 1 → 0 < fuel →
      (doLoop mr b M oc ju fuel attempt last).result =
          .exhausted (mr + 1) (lastErrOf (oc mr)) ∧
      (doLoop mr b M oc ju fuel attempt last).attempts = mr + 1 := by
  intro fuel
  induction fuel with
  | zero => intro attempt last _ h0; exact absurd h0 (by omega)
  | succ n ih =>
    intro attempt last hsum _
    have hretry := hall attempt
    by_cases hlt : attempt < mr
    · have hrec : ∀ l, (doLoop mr b M oc ju n (attempt + 1) l).result =
            .exhausted (mr + 1) (lastErrOf (oc mr)) ∧
          (doLoop mr b M oc ju n (attempt + 1) l).attempts = mr + 1 :=
        fun l => ih (attempt + 1) l (by omega) (by omega)
      cases hoc : oc attempt with
      | netE e =>
        rw [hoc] at hretry
        simp only [retryableOutcome] at hretry
        simp only [doLoop, hoc, hretry, Bool.not_true, Bool.false_eq_true, if_false,
          if_pos hlt]
        exact hrec (some (.net e))
      | resp s hdr =>
        rw [hoc] at hretry
        simp only [retryableOutcome] at hretry
        simp only [doLoop, hoc, hretry, Bool.not_true, Bool.false_eq_true, if_false,
          if_pos hlt]
        exact hrec (some (.api s))
    · have hattempt : attempt = mr := by omega
      have hn : n = 0 := by omega
      rw [← hattempt]
      subst hn
      cases hoc : oc attempt with
      | netE e =>
        rw [hoc] at hretry
        simp only [retryableOutcome] at hretry
        simp only [doLoop, hoc, hretry, Bool.not_true, Bool.false_eq_true, if_false,
          lt_self_iff_false, lastErrOf, Option.getD_some]
        exact ⟨by trivial, by trivial⟩
      | resp s hdr =>
        rw [hoc] at hretry
        simp only [retryableOutcome] at hretry
        simp only [doLoop, hoc, hretry, Bool.not_true, Bool.false_eq_true, if_false,
          lt_self_iff_false, lastErrOf, Option.getD_some]
        exact ⟨by trivial, by trivial⟩

/-- C4: when every attempt's outcome is retryable (429/5xx status or transient
network error), the transport performs exactly `maxRetries + 1` attempts
(`maxRetries` additional ones) and surfaces the last failure wrapped with the
total attempt count `maxRetries + 1`; a non-retryable status such as 404 on
the first attempt is returned immediately with zero additional attempts. -/
theorem C4_transport_retries (mr : ℕ) (b M : ℤ) (oc : ℕ → AttemptOutcome)
    (ju : ℕ → ℚ) (hall : ∀ i, retryableOutcome (oc i) = true) :
    ((doRun mr b M oc ju).result = .exhausted (mr + 1) (lastErrOf (oc mr)) ∧
      (doRun mr b M oc ju).attempts = mr + 1) ∧
    (∀ (oc2 : ℕ → AttemptOutcome) (s : ℕ) (hdr : Option String),
      isRetryableStatus s = false → oc2 0 = .resp s hdr →
      (doRun mr b M oc2 ju).result = .success s ∧
        (doRun mr b M oc2 ju).attempts = 1) := by
  constructor
  · exact doLoop_all_retryable mr b M oc ju hall (mr + 1) 0 none (by omega) (by omega)
  · intro oc2 s hdr hterm hoc
    unfold doRun
    simp only [doLoop, hoc, hterm, Bool.not_false, if_true]
    exact ⟨by trivial, by trivial⟩

/-- Witness for C4: three retries on constant 503 outcomes; immediate return
of a 404. -/
theorem C4_transport_retries_witness :
    (((doRun 3 100000000 5000000000 (fun _ => .resp 503 none) (fun _ => 0)).result =
        .exhausted 4 (lastErrOf (.resp 503 none)) ∧
      (doRun 3 100000000 5000000000 (fun _ => .resp 503 none) (fun _ => 0)).attempts = 4) ∧
    (∀ (oc2 : ℕ → AttemptOutcome) (s : ℕ) (hdr : Option String),
      isRetryableStatus s = false → oc2 0 = .resp s hdr →
      (doRun 3 100000000 5000000000 oc2 (fun _ => 0)).result = .success s ∧
        (doRun 3 100000000 5000000000 oc2 (fun _ => 0)).attempts = 1)) :=
  C4_transport_retries 3 100000000 5000000000 (fun _ => .resp 503 none)
    (fun _ => 0) (fun _ => rfl)

/-- C5 counterexample: a `Retry-After: 0` header parses as the non-negative
integer 0, yet the backoff wait is the exponential delay (here 100ms at the
default base delay with jitter factor 1), not the claimed 0 seconds. -/
theorem C5_counterexample :
    parseRetryAfter (some "0") = 0 ∧
    backoffDelayNs 100000000 5000000000 0 (parseRetryAfter (some "0")) (1/2) =
      100000000 ∧
    (100000000 : ℤ) ≠ 0 * 1000000000 := by
  have h1 : parseRetryAfter (some "0") = 0 := by decide
  refine ⟨h1, ?_, by decide⟩
  rw [h1]
  unfold backoffDelayNs jitterFactor ztrunc
  norm_num

/-- C5 (amended): a `Retry-After` header parsing as a *positive* integer `N`
makes the backoff wait exactly `N` seconds; when the header is absent,
unparseable, zero, or negative, the wait is the exponential formula
`min(maxDelay, baseDelay × 2^attempt) × jitterFactor` with
`jitterFactor = 0.75 + u·0.5 ∈ [0.75, 1.25)` for the uniform draw
`u ∈ [0,1)`. -/
theorem C5_backoff (b M : ℤ) (attempt : ℕ) (hdr : Option String) (u : ℚ)
    (s : String) (hu0 : 0 ≤ u) (hu1 : u < 1) :
    (∀ N : ℤ, parseRetryAfter hdr = N → 0 < N →
      backoffDelayNs b M attempt N u = N * 1000000000) ∧
    parseRetryAfter none = 0 ∧
    (atoi s = none → parseRetryAfter (some s) = 0) ∧
    (parseRetryAfter hdr = 0 →
      backoffDelayNs b M attempt (parseRetryAfter hdr) u =
        ztrunc (((min (ztrunc ((b : ℚ) * 2 ^ attempt)) M : ℤ) : ℚ) * jitterFactor u)) ∧
    (3/4 ≤ jitterFactor u ∧ jitterFactor u < 5/4) := by
  refine ⟨?_, rfl, ?_, ?_, ?_, ?_⟩
  · intro N _ hpos
    unfold backoffDelayNs
    rw [if_pos hpos]
  · intro hnone
    unfold parseRetryAfter
    dsimp only
    by_cases he : s = ""
    · rw [if_pos he]
    · rw [if_neg he, hnone]
  · intro h0
    rw [h0]
    unfold backoffDelayNs
    rw [if_neg (by omega)]
    have hmin : (if M < ztrunc ((b : ℚ) * 2 ^ attempt) then M
        else ztrunc ((b : ℚ) * 2 ^ attempt)) = min (ztrunc ((b : ℚ) * 2 ^ attempt)) M := by
      rcases le_or_lt (ztrunc ((b : ℚ) * 2 ^ attempt)) M with h | h
      · rw [if_neg (not_lt.mpr h), min_eq_left h]
      · rw [if_pos h, min_eq_right (le_of_lt h)]
    rw [hmin]
  · unfold jitterFactor
    linarith
  · unfold jitterFactor
    linarith

/-- Witness for C5 (amended) at `Retry-After: 7`, default delays, attempt 0,
jitter draw `u = 0`. -/
theorem C5_backoff_witness :
    ((∀ N : ℤ, parseRetryAfter (some "7") = N → 0 < N →
      backoffDelayNs 100000000 5000000000 0 N 0 = N * 1000000000) ∧
    parseRetryAfter none = 0 ∧
    (atoi "xyz" = none → parseRetryAfter (some "xyz") = 0) ∧
    (parseRetryAfter (some "7") = 0 →
      backoffDelayNs 100000000 5000000000 0 (parseRetryAfter (some "7")) 0 =
        ztrunc (((min (ztrunc ((100000000 : ℚ) * 2 ^ 0)) 5000000000 : ℤ) : ℚ) *
          jitterFactor 0)) ∧
    (3/4 ≤ jitterFactor 0 ∧ jitterFactor 0 < 5/4)) :=
  C5_backoff 100000000 5000000000 0 (some "7") 0 "xyz" le_rfl (by norm_num)

/-! ## Order signing (internal/orderbuilder/builder.go SignOrder) -/

/-- Exchange contract address constants from builder.go. -/
def PolygonExchange : String := "0x4bFb41d5B3570DeFd03C39a9A4D8dE6Bd8B8982E"

def PolygonNegRiskExchange : String := "0xC5d563A36AE78145C45a50134d48A1215220f80a"

def AmoyExchange : String := "0xdFE02Eb6733538f8Ea35D585af8DE5958AD99E40"

def AmoyNegRiskExchange : String := "0xC5d563A36AE78145C45a50134d48A1215220f80a"

/-- `OrderData` from builder.go (addresses kept as hex strings). -/
structure OrderData where
  Maker : String
  Taker : String
  TokenID : String
  MakerAmount : String
  TakerAmount : String
  Side : ℤ
  FeeRateBps : String
  Nonce : String
  Signer : String
  Expiration : String
  SignatureType : ℤ
  Salt : String
  deriving DecidableEq

/-- `big.Int.SetString(s, 10)`: optional sign followed by at least one decimal
digit (underscores are only recognized at base 0, hence rejected here). -/
def parseBigInt (s : String) : Option ℤ :=
  match s.toList with
  | [] => none
  | c :: rest =>
      let p : Bool × List Char :=
        if c = '-' then (true, rest)
        else if c = '+' then (false, rest)
        else (false, c :: rest)
      if p.2.isEmpty || !(p.2.all isDigitCh) then none
      else some (if p.1 then -(digitsVal p.2 : ℤ) else (digitsVal p.2 : ℤ))

/-- The chain/negRisk switch at the top of `SignOrder`. -/
def selectExchange (chainID : ℤ) (negRisk : Bool) : Option String :=
  if chainID = 137 ∧ negRisk = false then some PolygonExchange
  else if chainID = 137 ∧ negRisk = true then some PolygonNegRiskExchange
  else if chainID = 80002 ∧ negRisk = false then some AmoyExchange
  else if chainID = 80002 ∧ negRisk = true then some AmoyNegRiskExchange
  else none

/-- `SignOrder` from builder.go.  The EIP-712 hashing and ECDSA signing done
by the go-ethereum library (`TypedData.HashStruct`, `crypto.Sign`, the +27 V
adjustment and hex encoding) are external library code, abstracted as the
total function `hashSign` of the verifying contract address, chain ID and
order (the claim's "well-formed fields" proviso); the repository's own logic
is the chain/address switch and the tokenID base-10 parse. -/
def SignOrder (hashSign : String → ℤ → OrderData → String) (chainID : ℤ)
    (order : OrderData) (negRisk : Bool) : Except String String :=
  match selectExchange chainID negRisk with
  | none => .error ("orderbuilder: unsupported chain ID: " ++ toString chainID)
  | some exchangeAddr =>
      match parseBigInt order.TokenID with
      | none => .error ("orderbuilder: invalid tokenID: " ++ order.TokenID)
      | some _ => .ok ("0x" ++ hashSign exchangeAddr chainID order)

/-- C6: for every chain ID other than 137 and 80002, `SignOrder` fails with
the unsupported-chain error and produces no signature; for 137 and 80002 it
selects the exchange contract determined by `(chainID, negRisk)` among the
four named constants as the EIP-712 verifying contract and succeeds on
well-formed fields (a tokenID that parses in base 10). -/
theorem C6_signOrder (hashSign : String → ℤ → OrderData → String) (chainID : ℤ)
    (order : OrderData) (negRisk : Bool) :
    (chainID ≠ 137 → chainID ≠ 80002 →
      SignOrder hashSign chainID order negRisk =
        .error ("orderbuilder: unsupported chain ID: " ++ toString chainID)) ∧
    (chainID = 137 ∨ chainID = 80002 →
      ∃ addr, selectExchange chainID negRisk = some addr ∧
        addr ∈ [PolygonExchange, PolygonNegRiskExchange, AmoyExchange,
          AmoyNegRiskExchange] ∧
        (∀ t, parseBigInt order.TokenID = some t →
          SignOrder hashSign chainID order negRisk =
            .ok ("0x" ++ hashSign addr chainID order))) := by
  constructor
  · intro h137 h80002
    unfold SignOrder selectExchange
    simp [h137, h80002]
  · intro hchain
    have hsel : ∃ addr, selectExchange chainID negRisk = some addr ∧
        addr ∈ [PolygonExchange, PolygonNegRiskExchange, AmoyExchange,
          AmoyNegRiskExchange] := by
      rcases hchain with rfl | rfl <;> cases negRisk <;>
        simp [selectExchange]
    obtain ⟨addr, hsel, hmem⟩ := hsel
    refine ⟨addr, hsel, hmem, ?_⟩
    intro t ht
    unfold SignOrder
    rw [hsel]
    dsimp only
    rw [ht]

/-- Witness for C6: chain 1 is rejected; chain 137 (negRisk = false) selects
the Polygon exchange and signs an order with tokenID "123". -/
theorem C6_signOrder_witness :
    ((1 : ℤ) ≠ 137 ∧ (1 : ℤ) ≠ 80002 ∧
      SignOrder (fun _ _ _ => "ab") 1
        ⟨"0x0", "0x0", "123", "1", "1", 0, "0", "0", "0x0", "0", 0, "1"⟩ false =
          .error ("orderbuilder: unsupported chain ID: " ++ toString (1 : ℤ))) ∧
    (∃ addr, selectExchange 137 false = some addr ∧
      addr ∈ [PolygonExchange, PolygonNegRiskExchange, AmoyExchange,
        AmoyNegRiskExchange] ∧
      (∀ t, parseBigInt (OrderData.TokenID
          ⟨"0x0", "0x0", "123", "1", "1", 0, "0", "0", "0x0", "0", 0, "1"⟩) = some t →
        SignOrder (fun _ _ _ => "ab") 137
          ⟨"0x0", "0x0", "123", "1", "1", 0, "0", "0", "0x0", "0", 0, "1"⟩ false =
            .ok ("0x" ++ "ab"))) := by
  constructor
  · refine ⟨by decide, by decide, ?_⟩
    exact (C6_signOrder (fun _ _ _ => "ab") 1
      ⟨"0x0", "0x0", "123", "1", "1", 0, "0", "0", "0x0", "0", 0, "1"⟩ false).1
      (by decide) (by decide)
  · have h := (C6_signOrder (fun _ _ _ => "ab") 137
      ⟨"0x0", "0x0", "123", "1", "1", 0, "0", "0", "0x0", "0", 0, "1"⟩ false).2
      (Or.inl rfl)
    exact h

/-! ## Order posting (orders.go PostOrder, the validating variant) -/

/-- The client error taxonomy relevant to `PostOrder`: `*ValidationError`
versus the error wrappers of the later stages (header building, transport /
response parsing / decoding).  The later stages can never produce a
`validation` value. -/
inductive ClientErr
  | validation (field msg : String)
  | headers (msg : String)
  | network (msg : String)
  deriving DecidableEq

/-- `PostOrder` from orders.go.  `headersRes` is the outcome of `l2Headers`
and `netRes` the combined outcome of `http.Post`, `ParseResponse` and JSON
decoding (type `R` is the decoded `OrderResponse`); both are environment
parameters.  `json.Marshal` of the request struct cannot fail and is elided.
The returned `Bool` records whether the network call was reached. -/
def PostOrder {R : Type} (headersRes : Except String Unit) (netRes : Except String R)
    (orderType : String) (postOnly : Bool) : Except ClientErr R × Bool :=
  if postOnly ∧ orderType ≠ "GTC" ∧ orderType ≠ "GTD" then
    (.error (.validation "postOnly" "postOnly is only supported for GTC and GTD orders"),
      false)
  else
    match headersRes with
    | .error e => (.error (.headers e), false)
    | .ok () =>
        match netRes with
        | .error e => (.error (.network e), true)
        | .ok r => (.ok r, true)

/-- C7: with `postOnly = true` and an order type other than GTC/GTD,
`PostOrder` returns the postOnly `ValidationError` before any network request
is made; with GTC or GTD (or `postOnly = false`) no validation error is ever
produced.  (Of the two variants in the source history, orders.go — the
validating variant the spec designates as correct — is the authority.) -/
theorem C7_postOrder {R : Type} (headersRes : Except String Unit)
    (netRes : Except String R) (orderType : String) (postOnly : Bool) :
    (postOnly = true → orderType ≠ "GTC" → orderType ≠ "GTD" →
      PostOrder headersRes netRes orderType postOnly =
        (.error (.validation "postOnly"
          "postOnly is only supported for GTC and GTD orders"), false)) ∧
    (postOnly = false ∨ orderType = "GTC" ∨ orderType = "GTD" →
      ∀ f m, (PostOrder headersRes netRes orderType postOnly).1 ≠
        .error (.validation f m)) := by
  constructor
  · intro hpo hgtc hgtd
    unfold PostOrder
    rw [if_pos ⟨by rw [hpo], hgtc, hgtd⟩]
  · intro hok f m
    have hcond : ¬ (postOnly = true ∧ orderType ≠ "GTC" ∧ orderType ≠ "GTD") := by
      rcases hok with h | h | h
      · rw [h]; simp
      · rw [h]; simp
      · rw [h]; simp
    unfold PostOrder
    rw [if_neg (by simpa using hcond)]
    match headersRes with
    | .error e => simp
    | .ok () =>
        match netRes with
        | .error e => simp
        | .ok r => simp

/-- Witness for C7: a postOnly FOK order is rejected without a network call;
a postOnly GTC order produces no validation error. -/
theorem C7_postOrder_witness :
    (PostOrder (R := Unit) (.ok ()) (.ok ()) "FOK" true =
      (.error (.validation "postOnly"
        "postOnly is only supported for GTC and GTD orders"), false)) ∧
    (∀ f m, (PostOrder (R := Unit) (.ok ()) (.ok ()) "GTC" true).1 ≠
      .error (.validation f m)) :=
  ⟨(C7_postOrder (.ok ()) (.ok ()) "FOK" true).1 rfl (by decide) (by decide),
    (C7_postOrder (.ok ()) (.ok ()) "GTC" true).2 (Or.inr (Or.inl rfl))⟩

/-! ## HMAC authentication (internal/signing/hmac.go, BuildL2Headers)

SHA-256, HMAC, base64url and UTF-8 are implemented over byte lists
(bytes are `ℕ` values < 256, words `ℕ` values < 2^32, reduced with `% 2^32`),
mirroring crypto/sha256, crypto/hmac and encoding/base64 as used by
`BuildHMACSignature`. -/

def rotr32 (x n : ℕ) : ℕ := ((x >>> n) ||| (x <<< (32 - n))) % 4294967296

def smallSigma0 (x : ℕ) : ℕ := rotr32 x 7 ^^^ rotr32 x 18 ^^^ (x >>> 3)

def smallSigma1 (x : ℕ) : ℕ := rotr32 x 17 ^^^ rotr32 x 19 ^^^ (x >>> 10)

def bigSigma0 (x : ℕ) : ℕ := rotr32 x 2 ^^^ rotr32 x 13 ^^^ rotr32 x 22

def bigSigma1 (x : ℕ) : ℕ := rotr32 x 6 ^^^ rotr32 x 11 ^^^ rotr32 x 25

def sha256K : List ℕ :=
  [1116352408, 1899447441, 3049323471, 3921009573, 961987163,
   1508970993, 2453635748, 2870763221, 3624381080, 310598401,
   607225278, 1426881987, 1925078388, 2162078206, 2614888103,
   3248222580, 3835390401, 4022224774, 264347078, 604807628,
   770255983, 1249150122, 1555081692, 1996064986, 2554220882,
   2821834349, 2952996808, 3210313671, 3336571891, 3584528711,
   113926993, 338241895, 666307205, 773529912, 1294757372,
   1396182291, 1695183700, 1986661051, 2177026350, 2456956037,
   2730485921, 2820302411, 3259730800, 3345764771, 3516065817,
   3600352804, 4094571909, 275423344, 430227734, 506948616,
   659060556, 883997877, 958139571, 1322822218, 1537002063,
   1747873779, 1955562222, 2024104815, 2227730452, 2361852424,
   2428436474, 2756734187, 3204031479, 3329325298]

def sha256H0 : List ℕ :=
  [1779033703, 3144134277, 1013904242, 2773480762,
   1359893119, 2600822924, 528734635, 1541459225]

/-- SHA-256 padding: `0x80`, zero bytes up to 56 mod 64, then the bit length
as 8 big-endian bytes. -/
def sha256Pad (msg : List ℕ) : List ℕ :=
  let L := msg.length
  let zeros := (119 - L % 64) % 64
  let bl := 8 * L
  msg ++ [0x80] ++ List.replicate zeros 0 ++
    [(bl >>> 56) % 256, (bl >>> 48) % 256, (bl >>> 40) % 256, (bl >>> 32) % 256,
     (bl >>> 24) % 256, (bl >>> 16) % 256, (bl >>> 8) % 256, bl % 256]

def bytesToWords : List ℕ → List ℕ
  | b0 :: b1 :: b2 :: b3 :: rest =>
      (b0 * 16777216 + b1 * 65536 + b2 * 256 + b3) :: bytesToWords rest
  | _ => []

/-- Extend the 16-word schedule to 64 words (48 extension steps). -/
def extendSchedule : ℕ → List ℕ → List ℕ
  | 0, w => w
  | n + 1, w =>
      let k := w.length
      extendSchedule n (w ++
        [(smallSigma1 (w.getD (k - 2) 0) + w.getD (k - 7) 0 +
          smallSigma0 (w.getD (k - 15) 0) + w.getD (k - 16) 0) % 4294967296])

/-- One compression round; `st = [a,b,c,d,e,f,g,h]`, `kw = K[i] + W[i]`. -/
def compressRound (st : List ℕ) (kw : ℕ) : List ℕ :=
  let a := st.getD 0 0
  let b := st.getD 1 0
  let c := st.getD 2 0
  let d := st.getD 3 0
  let e := st.getD 4 0
  let f := st.getD 5 0
  let g := st.getD 6 0
  let h := st.getD 7 0
  let ch := (e &&& f) ^^^ ((e ^^^ 4294967295) &&& g)
  let maj := (a &&& b) ^^^ (a &&& c) ^^^ (b &&& c)
  let t1 := (h + bigSigma1 e + ch + kw) % 4294967296
  let t2 := (bigSigma0 a + maj) % 4294967296
  [(t1 + t2) % 4294967296, a, b, c, (d + t1) % 4294967296, e, f, g]

def processBlock (hs : List ℕ) (block : List ℕ) : List ℕ :=
  let w := extendSchedule 48 (bytesToWords block)
  let kw := List.zipWith (fun k wi => k + wi) sha256K w
  let st := kw.foldl compressRound hs
  List.zipWith (fun x y => (x + y) % 4294967296) hs st

/-- Split into 64-byte blocks (`fuel` bounds the recursion by the length,
keeping the definition structural so the kernel can evaluate it). -/
def chunks64Go : ℕ → List ℕ → List (List ℕ)
  | 0, _ => []
  | _, [] => []
  | fuel + 1, x :: rest => (x :: rest.take 63) :: chunks64Go fuel (rest.drop 63)

def chunks64 (l : List ℕ) : List (List ℕ) := chunks64Go l.length l

def wordsToBytes (ws : List ℕ) : List ℕ :=
  (ws.map (fun w => [(w >>> 24) % 256, (w >>> 16) % 256, (w >>> 8) % 256,
    w % 256])).flatten

def sha256 (msg : List ℕ) : List ℕ :=
  wordsToBytes ((chunks64 (sha256Pad msg)).foldl processBlock sha256H0)

/-- HMAC-SHA256 (crypto/hmac with sha256.New, block size 64). -/
def hmacSha256 (key msg : List ℕ) : List ℕ :=
  let k0 := if 64 < key.length then sha256 key else key
  let k1 := k0 ++ List.replicate (64 - k0.length) 0
  let ipad := k1.map (fun b => b ^^^ 0x36)
  let opad := k1.map (fun b => b ^^^ 0x5c)
  sha256 (opad ++ sha256 (ipad ++ msg))

/-- UTF-8 encoding of a string (Go `[]byte(s)`). -/
def utf8Bytes (s : String) : List ℕ :=
  (s.toList.map (fun c =>
    let n := c.toNat
    if n < 128 then [n]
    else if n < 2048 then [192 + n / 64, 128 + n % 64]
    else if n < 65536 then [224 + n / 4096, 128 + (n / 64) % 64, 128 + n % 64]
    else [240 + n / 262144, 128 + (n / 4096) % 64, 128 + (n / 64) % 64,
      128 + n % 64])).flatten

/-- The base64url alphabet value of a character (A-Z a-z 0-9 - _). -/
def b64Val (c : Char) : Option ℕ :=
  let n := c.toNat
  if 65 ≤ n && n ≤ 90 then some (n - 65)
  else if 97 ≤ n && n ≤ 122 then some (n - 97 + 26)
  else if 48 ≤ n && n ≤ 57 then some (n - 48 + 52)
  else if c = '-' then some 62
  else if c = '_' then some 63
  else none

def b64urlChars : List Char :=
  "ABCDEFGHIJKLMNOPQRSTUVWXYZabcdefghijklmnopqrstuvwxyz0123456789-_".toList

def b64Chr (v : ℕ) : Char := b64urlChars.getD v 'A'

/-- base64url encoding with padding (Go `base64.URLEncoding.EncodeToString`). -/
def b64urlEncode : List ℕ → List Char
  | [] => []
  | [b0] => [b64Chr (b0 / 4), b64Chr (b0 % 4 * 16), '=', '=']
  | [b0, b1] =>
      [b64Chr (b0 / 4), b64Chr (b0 % 4 * 16 + b1 / 16), b64Chr (b1 % 16 * 4), '=']
  | b0 :: b1 :: b2 :: rest =>
      b64Chr (b0 / 4) :: b64Chr (b0 % 4 * 16 + b1 / 16) ::
        b64Chr (b1 % 16 * 4 + b2 / 64) :: b64Chr (b2 % 64) :: b64urlEncode rest

def b64urlEncodeStr (bs : List ℕ) : String := String.mk (b64urlEncode bs)

/-- base64url decoding with mandatory padding (Go
`base64.URLEncoding.DecodeString`): quads of alphabet characters, the final
quad optionally padded `xx==` or `xxx=`; trailing bits are not checked
(Go's default non-strict mode);  `\r`/`\n` are skipped by the caller. -/
def b64urlDecodeChars : List Char → Option (List ℕ)
  | [] => some []
  | c1 :: c2 :: c3 :: c4 :: rest =>
      match b64Val c1, b64Val c2 with
      | some v1, some v2 =>
          if c3 = '=' then
            if c4 = '=' && rest.isEmpty then some [v1 * 4 + v2 / 16] else none
          else
            match b64Val c3 with
            | some v3 =>
                if c4 = '=' then
                  if rest.isEmpty then some [v1 * 4 + v2 / 16, v2 % 16 * 16 + v3 / 4]
                  else none
                else
                  match b64Val c4 with
                  | some v4 =>
                      (b64urlDecodeChars rest).map (fun tail =>
                        (v1 * 4 + v2 / 16) :: (v2 % 16 * 16 + v3 / 4) ::
                          (v3 % 4 * 64 + v4) :: tail)
                  | none => none
            | none => none
      | _, _ => none
  | _ => none

/-- Go's base64 Decode skips CR and LF wherever they occur. -/
def b64urlDecode (s : String) : Option (List ℕ) :=
  b64urlDecodeChars (s.toList.filter (fun c => !(c = '\r') && !(c = '\n')))

/-- The base64url grammar (spec side): a valid padded base64url character
sequence is a run of 4-character groups of alphabet characters whose last
group may instead be two characters and `==`, or three characters and `=`. -/
inductive ValidQuads : List Char → Prop
  | nil : ValidQuads []
  | pad2 (c1 c2 : Char) : (b64Val c1).isSome = true → (b64Val c2).isSome = true →
      ValidQuads [c1, c2, '=', '=']
  | pad1 (c1 c2 c3 : Char) : (b64Val c1).isSome = true → (b64Val c2).isSome = true →
      (b64Val c3).isSome = true → ValidQuads [c1, c2, c3, '=']
  | quad (c1 c2 c3 c4 : Char) (rest : List Char) :
      (b64Val c1).isSome = true → (b64Val c2).isSome = true →
      (b64Val c3).isSome = true → (b64Val c4).isSome = true →
      ValidQuads rest → ValidQuads (c1 :: c2 :: c3 :: c4 :: rest)

/-- A string is valid base64url input for Go's padded URL decoder when, after
discarding CR/LF, its characters satisfy the base64url grammar. -/
def ValidBase64URL (s : String) : Prop :=
  ValidQuads (s.toList.filter (fun c => !(c = '\r') && !(c = '\n')))

theorem b64Val_eq_none : b64Val '=' = none := by decide

theorem validQuads_decode {cs : List Char} (h : ValidQuads cs) :
    (b64urlDecodeChars cs).isSome = true := by
  induction h with
  | nil => rfl
  | pad2 c1 c2 h1 h2 =>
      obtain ⟨v1, hv1⟩ := Option.isSome_iff_exists.mp h1
      obtain ⟨v2, hv2⟩ := Option.isSome_iff_exists.mp h2
      simp [b64urlDecodeChars, hv1, hv2]
  | pad1 c1 c2 c3 h1 h2 h3 =>
      obtain ⟨v1, hv1⟩ := Option.isSome_iff_exists.mp h1
      obtain ⟨v2, hv2⟩ := Option.isSome_iff_exists.mp h2
      obtain ⟨v3, hv3⟩ := Option.isSome_iff_exists.mp h3
      have hc3 : c3 ≠ '=' := by
        intro hc
        rw [hc, b64Val_eq_none] at hv3
        cases hv3
      simp [b64urlDecodeChars, hv1, hv2, hv3, hc3]
  | quad c1 c2 c3 c4 rest h1 h2 h3 h4 _ ih =>
      obtain ⟨v1, hv1⟩ := Option.isSome_iff_exists.mp h1
      obtain ⟨v2, hv2⟩ := Option.isSome_iff_exists.mp h2
      obtain ⟨v3, hv3⟩ := Option.isSome_iff_exists.mp h3
      obtain ⟨v4, hv4⟩ := Option.isSome_iff_exists.mp h4
      have hc3 : c3 ≠ '=' := by
        intro hc
        rw [hc, b64Val_eq_none] at hv3
        cases hv3
      have hc4 : c4 ≠ '=' := by
        intro hc
        rw [hc, b64Val_eq_none] at hv4
        cases hv4
      simp [b64urlDecodeChars, hv1, hv2, hv3, hv4, hc3, hc4]
      exact Option.isSome_iff_exists.mp ih |>.elim (fun tail htail => by
        rw [htail]; rfl)

theorem decode_validQuads :
    ∀ (n : ℕ) (cs : List Char), cs.length ≤ n →
      (b64urlDecodeChars cs).isSome = true → ValidQuads cs := by
  intro n
  induction n with
  | zero =>
      intro cs hlen _
      have hnil : cs = [] := List.length_eq_zero.mp (Nat.le_zero.mp hlen)
      subst hnil
      exact .nil
  | succ n ih =>
      intro cs hlen hdec
      rcases cs with _ | ⟨c1, _ | ⟨c2, _ | ⟨c3, _ | ⟨c4, rest⟩⟩⟩⟩
      · exact .nil
      · simp [b64urlDecodeChars] at hdec
      · simp [b64urlDecodeChars] at hdec
      · simp [b64urlDecodeChars] at hdec
      · rw [b64urlDecodeChars] at hdec
        cases hv1 : b64Val c1 with
        | none => rw [hv1] at hdec; simp at hdec
        | some v1 =>
        cases hv2 : b64Val c2 with
        | none => rw [hv1, hv2] at hdec; simp at hdec
        | some v2 =>
        rw [hv1, hv2] at hdec
        simp only at hdec
        by_cases hc3 : c3 = '='
        · rw [if_pos hc3] at hdec
          by_cases hg : c4 = '=' && rest.isEmpty
          · rw [if_pos hg] at hdec
            obtain ⟨hc4, hrest⟩ := Bool.and_eq_true .. ▸ hg
            subst hc3
            rw [decide_eq_true_eq] at hc4
            subst hc4
            rw [List.isEmpty_iff.mp hrest]
            exact .pad2 c1 c2 (by rw [hv1]; rfl) (by rw [hv2]; rfl)
          · rw [if_neg hg] at hdec; cases hdec
        · rw [if_neg hc3] at hdec
          cases hv3 : b64Val c3 with
          | none => rw [hv3] at hdec; cases hdec
          | some v3 =>
          rw [hv3] at hdec
          simp only at hdec
          by_cases hc4 : c4 = '='
          · rw [if_pos hc4] at hdec
            by_cases hrest : rest.isEmpty
            · subst hc4
              rw [List.isEmpty_iff.mp hrest]
              exact .pad1 c1 c2 c3 (by rw [hv1]; rfl) (by rw [hv2]; rfl)
                (by rw [hv3]; rfl)
            · rw [if_neg (by simpa using hrest)] at hdec; cases hdec
          · rw [if_neg hc4] at hdec
            cases hv4 : b64Val c4 with
            | none => rw [hv4] at hdec; cases hdec
            | some v4 =>
            rw [hv4] at hdec
            simp only [Option.isSome_map] at hdec
            have hrest : ValidQuads rest := by
              apply ih rest (by simp at hlen; omega)
              cases hrec : b64urlDecodeChars rest with
              | none => rw [hrec] at hdec; cases hdec
              | some tail => rfl
            exact .quad c1 c2 c3 c4 rest (by rw [hv1]; rfl) (by rw [hv2]; rfl)
              (by rw [hv3]; rfl) (by rw [hv4]; rfl) hrest

theorem b64urlDecode_isSome_iff (s : String) :
    (b64urlDecode s).isSome = true ↔ ValidBase64URL s := by
  constructor
  · exact fun h => decode_validQuads _ _ le_rfl h
  · exact validQuads_decode

/-! ## BuildHMACSignature (internal/signing/hmac.go) and BuildL2Headers -/

/-- `BuildHMACSignature`: decode the base64url secret, HMAC-SHA256 the
delimiter-free concatenation `timestamp + method + requestPath + body`,
and base64url-encode the digest.  (The Go error wraps the base64
`CorruptInputError`; its rendered text is abbreviated.) -/
def BuildHMACSignature (secret timestamp method requestPath body : String) :
    Except String String :=
  match b64urlDecode secret with
  | none => .error "signing: failed to decode secret: illegal base64 data"
  | some key =>
      .ok (b64urlEncodeStr (hmacSha256 key
        (utf8Bytes (timestamp ++ method ++ requestPath ++ body))))

/-- `L2Credentials` from part of the signing package. -/
structure L2Credentials where
  ApiKey : String
  ApiSecret : String
  ApiPassphrase : String
  Address : String
  deriving DecidableEq

/-- `BuildL2Headers`: the timestamp (current unix seconds in Go) is supplied
by the clock, here a parameter.  On success it sets exactly the five headers
POLY_ADDRESS, POLY_SIGNATURE, POLY_TIMESTAMP, POLY_API_KEY, POLY_PASSPHRASE. -/
def BuildL2Headers (creds : L2Credentials) (timestamp method path body : String) :
    Except String (List (String × String)) :=
  match BuildHMACSignature creds.ApiSecret timestamp method path body with
  | .error e => .error e
  | .ok sig =>
      .ok [("POLY_ADDRESS", creds.Address), ("POLY_SIGNATURE", sig),
           ("POLY_TIMESTAMP", timestamp), ("POLY_API_KEY", creds.ApiKey),
           ("POLY_PASSPHRASE", creds.ApiPassphrase)]

/-- `BuildHMACSignature` fails exactly on invalid base64url secrets. -/
theorem hmac_error_iff (secret timestamp method path body : String) :
    (∃ e, BuildHMACSignature secret timestamp method path body = .error e) ↔
      ¬ ValidBase64URL secret := by
  cases hdec : b64urlDecode secret with
  | none =>
      constructor
      · intro _
        rw [← b64urlDecode_isSome_iff, hdec]
        simp
      · intro _
        refine ⟨"signing: failed to decode secret: illegal base64 data", ?_⟩
        unfold BuildHMACSignature
        rw [hdec]
  | some key =>
      constructor
      · rintro ⟨e, he⟩
        unfold BuildHMACSignature at he
        rw [hdec] at he
        cases he
      · intro hnv
        exact absurd (b64urlDecode_isSome_iff secret |>.mp (by rw [hdec]; rfl)) hnv

/-- String concatenation is cancellative on the left: differing bodies give
differing messages. -/
theorem message_ne_of_body_ne (t m p b b2 : String) (h : b ≠ b2) :
    t ++ m ++ p ++ b ≠ t ++ m ++ p ++ b2 := by
  intro he
  apply h
  have hd := congrArg String.data he
  simp only [String.data_append] at hd
  exact String.ext (List.append_cancel_left hd)

set_option maxRecDepth 1000000 in
/-- C3: `BuildHMACSignature` errors exactly when the secret is not valid
base64url; otherwise it returns the base64url encoding of HMAC-SHA256 keyed
by the decoded secret over the delimiter-free concatenation
`timestamp + method + path + body` — so a changed body always changes the
signed message, and at the repository's cross-implementation vector a
one-character body change changes the output, which equals the known
constant; `BuildL2Headers` propagates exactly the same error and on success
emits exactly the address, signature, timestamp, apiKey and passphrase
headers.  (That every single-character change of every body changes the
256-bit MAC itself is a cryptographic collision property outside what can be
settled; the message-level change is proved universally and the output-level
change at the reference vector.) -/
theorem C3_buildHMACSignature (secret timestamp method path body body2 : String)
    (creds : L2Credentials) :
    ((∃ e, BuildHMACSignature secret timestamp method path body = .error e) ↔
      ¬ ValidBase64URL secret) ∧
    (∀ key, b64urlDecode secret = some key →
      BuildHMACSignature secret timestamp method path body =
        .ok (b64urlEncodeStr (hmacSha256 key
          (utf8Bytes (timestamp ++ method ++ path ++ body))))) ∧
    (body ≠ body2 →
      timestamp ++ method ++ path ++ body ≠ timestamp ++ method ++ path ++ body2) ∧
    (BuildHMACSignature "AAAAAAAAAAAAAAAAAAAAAAAAAAAAAAAAAAAAAAAAAAA=" "1000000"
        "test-sign" "/orders" "\x7b\"hash\":\"0x123\"\x7d" =
      .ok "4gJVbox-R6XlDK4nlaicig0_ANVL1qdcahiL8CXfXLM=") ∧
    (BuildHMACSignature "AAAAAAAAAAAAAAAAAAAAAAAAAAAAAAAAAAAAAAAAAAA=" "1000000"
        "test-sign" "/orders" "\x7b\"hash\":\"0x124\"\x7d" ≠
      BuildHMACSignature "AAAAAAAAAAAAAAAAAAAAAAAAAAAAAAAAAAAAAAAAAAA=" "1000000"
        "test-sign" "/orders" "\x7b\"hash\":\"0x123\"\x7d") ∧
    ((∃ e, BuildL2Headers creds timestamp method path body = .error e) ↔
      ¬ ValidBase64URL creds.ApiSecret) ∧
    (∀ sig, BuildHMACSignature creds.ApiSecret timestamp method path body = .ok sig →
      BuildL2Headers creds timestamp method path body =
        .ok [("POLY_ADDRESS", creds.Address), ("POLY_SIGNATURE", sig),
             ("POLY_TIMESTAMP", timestamp), ("POLY_API_KEY", creds.ApiKey),
             ("POLY_PASSPHRASE", creds.ApiPassphrase)]) := by
  refine ⟨hmac_error_iff secret timestamp method path body, ?_,
    message_ne_of_body_ne timestamp method path body body2, by decide, by decide,
    ?_, ?_⟩
  · intro key hkey
    unfold BuildHMACSignature
    rw [hkey]
  · cases hh : BuildHMACSignature creds.ApiSecret timestamp method path body with
    | error e =>
        constructor
        · intro _
          exact (hmac_error_iff creds.ApiSecret timestamp method path body).mp ⟨e, hh⟩
        · intro _
          refine ⟨e, ?_⟩
          unfold BuildL2Headers
          rw [hh]
    | ok sig =>
        constructor
        · rintro ⟨e, he⟩
          unfold BuildL2Headers at he
          rw [hh] at he
          cases he
        · intro hnv
          obtain ⟨e, he⟩ :=
            (hmac_error_iff creds.ApiSecret timestamp method path body).mpr hnv
          rw [hh] at he
          cases he
  · intro sig hsig
    unfold BuildL2Headers
    rw [hsig]

set_option maxRecDepth 1000000 in
set_option maxHeartbeats 4000000 in
/-- Witness for C3 at the repository's own cross-implementation test vector
(32 zero bytes as secret). -/
theorem C3_buildHMACSignature_witness :
    ("1000000" ++ "test-sign" ++ "/orders" ++ "\x7b\"hash\":\"0x124\"\x7d" ≠
      "1000000" ++ "test-sign" ++ "/orders" ++ "\x7b\"hash\":\"0x123\"\x7d") ∧
    (BuildHMACSignature "AAAAAAAAAAAAAAAAAAAAAAAAAAAAAAAAAAAAAAAAAAA=" "1000000"
        "test-sign" "/orders" "\x7b\"hash\":\"0x123\"\x7d" =
      .ok "4gJVbox-R6XlDK4nlaicig0_ANVL1qdcahiL8CXfXLM=") ∧
    BuildL2Headers ⟨"test-api-key", "AAAAAAAAAAAAAAAAAAAAAAAAAAAAAAAAAAAAAAAAAAA=",
        "test-passphrase", "0xf39Fd6e51aad88F6F4ce6aB8827279cffFb92266"⟩
        "1000000" "test-sign" "/orders" "\x7b\"hash\":\"0x123\"\x7d" =
      .ok [("POLY_ADDRESS", "0xf39Fd6e51aad88F6F4ce6aB8827279cffFb92266"),
           ("POLY_SIGNATURE", "4gJVbox-R6XlDK4nlaicig0_ANVL1qdcahiL8CXfXLM="),
           ("POLY_TIMESTAMP", "1000000"), ("POLY_API_KEY", "test-api-key"),
           ("POLY_PASSPHRASE", "test-passphrase")] := by
  have h := C3_buildHMACSignature "AAAAAAAAAAAAAAAAAAAAAAAAAAAAAAAAAAAAAAAAAAA="
    "1000000" "test-sign" "/orders" "\x7b\"hash\":\"0x124\"\x7d"
    "\x7b\"hash\":\"0x123\"\x7d"
    ⟨"test-api-key", "AAAAAAAAAAAAAAAAAAAAAAAAAAAAAAAAAAAAAAAAAAA=",
      "test-passphrase", "0xf39Fd6e51aad88F6F4ce6aB8827279cffFb92266"⟩
  have h2 := C3_buildHMACSignature "AAAAAAAAAAAAAAAAAAAAAAAAAAAAAAAAAAAAAAAAAAA="
    "1000000" "test-sign" "/orders" "\x7b\"hash\":\"0x123\"\x7d"
    "\x7b\"hash\":\"0x123\"\x7d"
    ⟨"test-api-key", "AAAAAAAAAAAAAAAAAAAAAAAAAAAAAAAAAAAAAAAAAAA=",
      "test-passphrase", "0xf39Fd6e51aad88F6F4ce6aB8827279cffFb92266"⟩
  refine ⟨h.2.2.1 (by decide), h.2.2.2.1, ?_⟩
  exact h2.2.2.2.2.2.2 "4gJVbox-R6XlDK4nlaicig0_ANVL1qdcahiL8CXfXLM=" h2.2.2.2.1

/-! ## Streaming client (ws/client.go, ws/types.go, ws/subscription.go) -/

/-- `AuthPayload` from ws/types.go. -/
structure AuthPayload where
  ApiKey : String
  Secret : String
  Passphrase : String
  deriving DecidableEq

/-- `SubscriptionRequest` from ws/types.go (`Typ` is the Go field `Type`,
which is a reserved word here). -/
structure SubscriptionRequest where
  Typ : String
  Operation : String
  AssetsIDs : List String
  Markets : List String
  InitialDump : Option Bool
  Auth : Option AuthPayload
  deriving DecidableEq

def OpSubscribe : String := "subscribe"

def OpUnsubscribe : String := "unsubscribe"

def ChannelMarket : String := "market"

def ChannelUser : String := "user"

/-- One dial cycle as scheduled by the environment: either the dial fails, or
it succeeds and the socket yields `frames` to the read loop before the read
errors (a genuine read error or the heartbeat-forced close). -/
structure SessionScript where
  dialOk : Bool
  frames : List String
  deriving DecidableEq

/-- Observable events of a connection's lifecycle: a failed dial, a subscribe
message written on the socket, or a frame read from the socket (a PONG frame
is consumed, any other frame is dispatched to listeners — both are reads that
the claim orders after the replay). -/
inductive WireEvent
  | dialFail
  | send (req : SubscriptionRequest)
  | recv (frame : String)
  deriving DecidableEq

/-- `resubscribe` from ws/client.go: sends every tracked subscription, in
tracking order. -/
def resubscribeEvents (subs : List SubscriptionRequest) : List WireEvent :=
  subs.map .send

/-- `readLoop`: reads frames in arrival order until the read errors. -/
def readLoopEvents (frames : List String) : List WireEvent :=
  frames.map .recv

/-- One iteration of `connectLoop`: a failed dial backs off and retries; a
successful dial stores the socket, then calls `resubscribe`, then runs
`readLoop` — in that program order.  The tracked-subscription snapshot `subsAt`
is supplied per session because other goroutines may mutate the list between
sessions. -/
def sessionEvents (subsAt : List SubscriptionRequest) (s : SessionScript) :
    List WireEvent :=
  if s.dialOk then resubscribeEvents subsAt ++ readLoopEvents s.frames
  else [.dialFail]

/-- The whole `connectLoop` trace over a finite schedule of sessions (the
loop exits when the context is cancelled, after finitely many sessions). -/
def connectLoopEvents : List (List SubscriptionRequest × SessionScript) → List WireEvent
  | [] => []
  | (subs, s) :: rest => sessionEvents subs s ++ connectLoopEvents rest

/-- C8: on every transition into Connected (session `k` of any schedule whose
dial succeeded), the whole connection trace splits as: events of the earlier
sessions, then *all* re-subscribe sends of the currently tracked
subscriptions, then the frames read on the new socket, then later sessions —
so every tracked subscription is re-sent before any inbound frame of that
socket is read or forwarded. -/
theorem C8_resubscribe_before_read
    (sched : List (List SubscriptionRequest × SessionScript)) (k : ℕ)
    (subs : List SubscriptionRequest) (s : SessionScript)
    (hk : sched[k]? = some (subs, s)) (hok : s.dialOk = true) :
    connectLoopEvents sched =
      connectLoopEvents (List.take k sched) ++
        (List.map WireEvent.send subs ++ List.map WireEvent.recv s.frames) ++
        connectLoopEvents (List.drop (k + 1) sched) := by
  induction sched generalizing k with
  | nil => simp at hk
  | cons hd tl ih =>
    cases k with
    | zero =>
      simp only [List.getElem?_cons_zero, Option.some.injEq] at hk
      subst hk
      simp only [List.take_zero, List.drop_succ_cons, List.drop_zero]
      show sessionEvents subs s ++ connectLoopEvents tl = _
      rw [sessionEvents, if_pos hok]
      simp [resubscribeEvents, readLoopEvents, connectLoopEvents]
    | succ k =>
      simp only [List.getElem?_cons_succ] at hk
      have htl := ih k hk
      obtain ⟨subs0, s0⟩ := hd
      show sessionEvents subs0 s0 ++ connectLoopEvents tl = _
      rw [htl]
      simp only [List.take_succ_cons, List.drop_succ_cons]
      show _ = (sessionEvents subs0 s0 ++ connectLoopEvents (List.take k tl)) ++ _ ++ _
      simp [List.append_assoc]

/-- Witness for C8: a connection holding two tracked subscriptions re-sends
both before any post-reconnect frame. -/
theorem C8_resubscribe_before_read_witness :
    connectLoopEvents
        [([⟨"market", "subscribe", ["A"], [], some true, none⟩,
           ⟨"market", "subscribe", ["B"], [], some true, none⟩],
          ⟨true, ["f1", "f2"]⟩)] =
      connectLoopEvents (List.take 0
        [([⟨"market", "subscribe", ["A"], [], some true, none⟩,
           ⟨"market", "subscribe", ["B"], [], some true, none⟩],
          (⟨true, ["f1", "f2"]⟩ : SessionScript))]) ++
        (List.map WireEvent.send
          [⟨"market", "subscribe", ["A"], [], some true, none⟩,
           ⟨"market", "subscribe", ["B"], [], some true, none⟩] ++
          List.map WireEvent.recv ["f1", "f2"]) ++
        connectLoopEvents (List.drop 1
          [([⟨"market", "subscribe", ["A"], [], some true, none⟩,
             ⟨"market", "subscribe", ["B"], [], some true, none⟩],
            (⟨true, ["f1", "f2"]⟩ : SessionScript))]) :=
  C8_resubscribe_before_read _ 0 _ _ rfl rfl

/-! ## Subscription tracking (ws/types.go removeTrackedAssets /
removeTrackedMarkets, ws/subscription.go UnsubscribeMarket / UnsubscribeUser) -/

/-- The state of one `connection` relevant to subscription tracking: whether
`c.conn` is non-nil and the tracked `subs` list. -/
structure WsConn where
  sockPresent : Bool
  subs : List SubscriptionRequest
  deriving DecidableEq

/-- `sendJSON` from ws/client.go: fails with "ws: not connected" when the
socket is nil (e.g. mid-reconnect).  Write I/O errors of a live socket are
external and elided. -/
def sendJSON (c : WsConn) : Except String Unit :=
  if c.sockPresent then .ok () else .error "ws: not connected"

/-- `removeTrackedAssets` from ws/types.go: drop every tracked subscription
having at least one asset ID in the removal set, keeping the rest in order
(the Go loop appends kept entries to a reused slice). -/
def removeTrackedAssets (subs : List SubscriptionRequest) (assetIDs : List String) :
    List SubscriptionRequest :=
  subs.foldl (fun filtered sub =>
    if sub.AssetsIDs.any (fun id => assetIDs.contains id) then filtered
    else filtered ++ [sub]) []

/-- `removeTrackedMarkets` from ws/types.go, the market-key analogue. -/
def removeTrackedMarkets (subs : List SubscriptionRequest) (markets : List String) :
    List SubscriptionRequest :=
  subs.foldl (fun filtered sub =>
    if sub.Markets.any (fun m => markets.contains m) then filtered
    else filtered ++ [sub]) []

theorem removeTrackedAssets_eq_filter (subs : List SubscriptionRequest)
    (assetIDs : List String) :
    removeTrackedAssets subs assetIDs =
      subs.filter (fun sub => !sub.AssetsIDs.any (fun id => assetIDs.contains id)) := by
  unfold removeTrackedAssets
  suffices h : ∀ acc, subs.foldl (fun filtered sub =>
      if sub.AssetsIDs.any (fun id => assetIDs.contains id) then filtered
      else filtered ++ [sub]) acc =
      acc ++ subs.filter (fun sub => !sub.AssetsIDs.any (fun id => assetIDs.contains id)) by
    simpa using h []
  induction subs with
  | nil => intro acc; simp
  | cons hd tl ih =>
    intro acc
    by_cases hhd : hd.AssetsIDs.any (fun id => assetIDs.contains id)
    · simp only [List.foldl_cons, List.filter_cons, hhd, if_pos, Bool.not_true]
      rw [ih acc]
      simp
    · rw [List.foldl_cons, if_neg hhd, ih (acc ++ [hd])]
      have hforall : ∀ x ∈ hd.AssetsIDs, x ∉ assetIDs := by
        intro x hx hmem
        apply hhd
        rw [List.any_eq_true]
        exact ⟨x, hx, by simpa using hmem⟩
      have hb : (!hd.AssetsIDs.any fun id => assetIDs.contains id) = true := by
        rw [Bool.not_eq_true] at hhd
        rw [hhd]
        rfl
      rw [List.filter_cons, if_pos hb]
      simp

theorem removeTrackedMarkets_eq_filter (subs : List SubscriptionRequest)
    (markets : List String) :
    removeTrackedMarkets subs markets =
      subs.filter (fun sub => !sub.Markets.any (fun m => markets.contains m)) := by
  unfold removeTrackedMarkets
  suffices h : ∀ acc, subs.foldl (fun filtered sub =>
      if sub.Markets.any (fun m => markets.contains m) then filtered
      else filtered ++ [sub]) acc =
      acc ++ subs.filter (fun sub => !sub.Markets.any (fun m => markets.contains m)) by
    simpa using h []
  induction subs with
  | nil => intro acc; simp
  | cons hd tl ih =>
    intro acc
    by_cases hhd : hd.Markets.any (fun m => markets.contains m)
    · simp only [List.foldl_cons, List.filter_cons, hhd, if_pos, Bool.not_true]
      rw [ih acc]
      simp
    · rw [List.foldl_cons, if_neg hhd, ih (acc ++ [hd])]
      have hforall : ∀ x ∈ hd.Markets, x ∉ markets := by
        intro x hx hmem
        apply hhd
        rw [List.any_eq_true]
        exact ⟨x, hx, by simpa using hmem⟩
      have hb : (!hd.Markets.any fun m => markets.contains m) = true := by
        rw [Bool.not_eq_true] at hhd
        rw [hhd]
        rfl
      rw [List.filter_cons, if_pos hb]
      simp

/-- `UnsubscribeMarket` from ws/subscription.go, on the client's market
connection state: with no market connection it returns nil unchanged; with
one, it sends the unsubscribe envelope (never tracked) and, only if the send
succeeds, removes the matching tracked subscriptions. -/
def UnsubscribeMarket (marketConn : Option WsConn) (assetIDs : List String) :
    Except String Unit × Option WsConn :=
  match marketConn with
  | none => (.ok (), none)
  | some conn =>
      match sendJSON conn with
      | .error e => (.error e, some conn)
      | .ok () =>
          (.ok (), some { conn with subs := removeTrackedAssets conn.subs assetIDs })

/-- `UnsubscribeUser` from ws/subscription.go, analogously. -/
def UnsubscribeUser (userConn : Option WsConn) (markets : List String) :
    Except String Unit × Option WsConn :=
  match userConn with
  | none => (.ok (), none)
  | some conn =>
      match sendJSON conn with
      | .error e => (.error e, some conn)
      | .ok () =>
          (.ok (), some { conn with subs := removeTrackedMarkets conn.subs markets })

/-- The subscription request built by the market-channel Subscribe* methods
(SubscribeOrderBook / SubscribePrices / SubscribeLastTradePrice /
SubscribeTickSizeChange): always `Operation = subscribe`. -/
def marketSubRequest (assetIDs : List String) : SubscriptionRequest :=
  ⟨ChannelMarket, OpSubscribe, assetIDs, [], some true, none⟩

/-- The subscription request built by SubscribeOrders / SubscribeTrades:
always `Operation = subscribe`. -/
def userSubRequest (markets : List String) (auth : AuthPayload) : SubscriptionRequest :=
  ⟨ChannelUser, OpSubscribe, [], markets, some true, some auth⟩

/-- `connection.subscribe` appends the request to the tracked list. -/
def subscribeTrack (c : WsConn) (req : SubscriptionRequest) : WsConn :=
  { c with subs := c.subs ++ [req] }

/-- The client's two lazily created connections. -/
structure WsClientState where
  marketConn : Option WsConn
  userConn : Option WsConn
  deriving DecidableEq

/-- The externally triggerable operations that touch subscription tracking.
`sockMarket`/`sockUser` model the background connectLoop
connecting/disconnecting the socket; the Subscribe* methods lazily create the
channel's connection. -/
inductive WsOp
  | subMarket (assetIDs : List String)
  | subUser (markets : List String) (auth : AuthPayload)
  | unsubMarket (assetIDs : List String)
  | unsubUser (markets : List String)
  | sockMarket (b : Bool)
  | sockUser (b : Bool)

/-- `getMarketConn`/`getUserConn` lazy creation: a fresh connection tracks no
subscriptions (and has no socket until its connectLoop dials). -/
def getOrInit : Option WsConn → WsConn
  | none => ⟨false, []⟩
  | some c => c

/-- One public-API step of the streaming client. -/
def wsStep (st : WsClientState) : WsOp → WsClientState
  | .subMarket ids =>
      { st with marketConn := some (subscribeTrack (getOrInit st.marketConn)
          (marketSubRequest ids)) }
  | .subUser ms auth =>
      { st with userConn := some (subscribeTrack (getOrInit st.userConn)
          (userSubRequest ms auth)) }
  | .unsubMarket ids =>
      { st with marketConn := (UnsubscribeMarket st.marketConn ids).2 }
  | .unsubUser ms =>
      { st with userConn := (UnsubscribeUser st.userConn ms).2 }
  | .sockMarket b =>
      { st with marketConn := st.marketConn.map (fun c => { c with sockPresent := b }) }
  | .sockUser b =>
      { st with userConn := st.userConn.map (fun c => { c with sockPresent := b }) }

/-- A run of the streaming client from the initial state (no connections). -/
def wsRun (ops : List WsOp) : WsClientState :=
  ops.foldl wsStep ⟨none, none⟩

/-- Every tracked entry of a connection has `Operation = subscribe`. -/
def connAllSubscribe : Option WsConn → Prop
  | none => True
  | some c => ∀ req ∈ c.subs, req.Operation = OpSubscribe

theorem connAllSubscribe_step (st : WsClientState)
    (h : connAllSubscribe st.marketConn ∧ connAllSubscribe st.userConn) (op : WsOp) :
    connAllSubscribe (wsStep st op).marketConn ∧
      connAllSubscribe (wsStep st op).userConn := by
  obtain ⟨hm, hu⟩ := h
  cases op with
  | subMarket ids =>
    refine ⟨?_, hu⟩
    intro req hreq
    simp only [subscribeTrack, List.mem_append, List.mem_singleton] at hreq
    rcases hreq with hreq | rfl
    · cases hc : st.marketConn with
      | none => rw [hc] at hreq; simp [getOrInit] at hreq
      | some c =>
          rw [hc] at hreq hm
          exact hm req hreq
    · rfl
  | subUser ms auth =>
    refine ⟨hm, ?_⟩
    intro req hreq
    simp only [subscribeTrack, List.mem_append, List.mem_singleton] at hreq
    rcases hreq with hreq | rfl
    · cases hc : st.userConn with
      | none => rw [hc] at hreq; simp [getOrInit] at hreq
      | some c =>
          rw [hc] at hreq hu
          exact hu req hreq
    · rfl
  | unsubMarket ids =>
    refine ⟨?_, hu⟩
    cases hc : st.marketConn with
    | none => simp [wsStep, UnsubscribeMarket, hc, connAllSubscribe]
    | some c =>
        rw [hc] at hm
        simp only [wsStep, hc]
        unfold UnsubscribeMarket sendJSON
        dsimp only
        by_cases hs : c.sockPresent
        · rw [if_pos hs]
          intro req hreq
          rw [removeTrackedAssets_eq_filter] at hreq
          exact hm req (List.mem_of_mem_filter hreq)
        · rw [if_neg hs]
          exact hm
  | unsubUser ms =>
    refine ⟨hm, ?_⟩
    cases hc : st.userConn with
    | none => simp [wsStep, UnsubscribeUser, hc, connAllSubscribe]
    | some c =>
        rw [hc] at hu
        simp only [wsStep, hc]
        unfold UnsubscribeUser sendJSON
        dsimp only
        by_cases hs : c.sockPresent
        · rw [if_pos hs]
          intro req hreq
          rw [removeTrackedMarkets_eq_filter] at hreq
          exact hu req (List.mem_of_mem_filter hreq)
        · rw [if_neg hs]
          exact hu
  | sockMarket b =>
    refine ⟨?_, hu⟩
    cases hc : st.marketConn with
    | none => simp [wsStep, hc, connAllSubscribe]
    | some c =>
        rw [hc] at hm
        simp only [wsStep, hc, Option.map_some]
        intro req hreq
        exact hm req hreq
  | sockUser b =>
    refine ⟨hm, ?_⟩
    cases hc : st.userConn with
    | none => simp [wsStep, hc, connAllSubscribe]
    | some c =>
        rw [hc] at hu
        simp only [wsStep, hc, Option.map_some]
        intro req hreq
        exact hu req hreq

/-- C9: in every state reachable through the public API, every tracked entry
of both connections has `Operation = subscribe` (no unsubscribe record is
ever tracked), and after a successful unsubscribe of asset set `S` every
tracked subscription sharing an asset with `S` is absent from the
re-subscribe replay of a subsequent forced reconnect. -/
theorem C9_tracked_all_subscribe (ops : List WsOp) (c c' : WsConn)
    (ids : List String) (req : SubscriptionRequest) :
    (connAllSubscribe (wsRun ops).marketConn ∧
      connAllSubscribe (wsRun ops).userConn) ∧
    (UnsubscribeMarket (some c) ids = (.ok (), some c') →
      (∃ a ∈ req.AssetsIDs, a ∈ ids) →
      .send req ∉ resubscribeEvents c'.subs) := by
  constructor
  · have hrun : ∀ (l : List WsOp) (st : WsClientState),
        connAllSubscribe st.marketConn ∧ connAllSubscribe st.userConn →
        connAllSubscribe (l.foldl wsStep st).marketConn ∧
          connAllSubscribe (l.foldl wsStep st).userConn := by
      intro l
      induction l with
      | nil => intro st h; exact h
      | cons op rest ih =>
          intro st h
          exact ih (wsStep st op) (connAllSubscribe_step st h op)
    exact hrun ops ⟨none, none⟩ ⟨trivial, trivial⟩
  · intro hunsub hshare hsend
    unfold UnsubscribeMarket sendJSON at hunsub
    by_cases hs : c.sockPresent
    · simp only [hs, reduceIte, Prod.mk.injEq, Option.some.injEq] at hunsub
      obtain ⟨-, rfl⟩ := hunsub
      simp only [resubscribeEvents, List.mem_map] at hsend
      obtain ⟨r, hr, hrr⟩ := hsend
      have hreq : req ∈ removeTrackedAssets c.subs ids := by
        cases hrr; exact hr
      rw [removeTrackedAssets_eq_filter] at hreq
      have hkeep := List.of_mem_filter hreq
      obtain ⟨a, ha, hain⟩ := hshare
      rw [Bool.not_eq_true', List.any_eq_false] at hkeep
      have := hkeep a ha
      exact this (by simpa using hain)
    · rw [Bool.not_eq_true] at hs
      simp only [hs] at hunsub
      simp at hunsub

/-- Witness for C9: a run that subscribes to assets A and B on the market
channel, connects, and unsubscribes A; plus the concrete no-replay fact. -/
theorem C9_tracked_all_subscribe_witness :
    ((connAllSubscribe (wsRun [.subMarket ["A"], .sockMarket true,
        .subMarket ["B"], .unsubMarket ["A"]]).marketConn ∧
      connAllSubscribe (wsRun [.subMarket ["A"], .sockMarket true,
        .subMarket ["B"], .unsubMarket ["A"]]).userConn) ∧
    (UnsubscribeMarket (some ⟨true, [marketSubRequest ["A"]]⟩) ["A"] =
        (.ok (), some ⟨true, []⟩) →
      (∃ a ∈ (marketSubRequest ["A"]).AssetsIDs, a ∈ ["A"]) →
      .send (marketSubRequest ["A"]) ∉ resubscribeEvents ([] : List SubscriptionRequest))) :=
  C9_tracked_all_subscribe [.subMarket ["A"], .sockMarket true,
    .subMarket ["B"], .unsubMarket ["A"]] ⟨true, [marketSubRequest ["A"]]⟩
    ⟨true, []⟩ ["A"] (marketSubRequest ["A"])

/-- C10 counterexample: a client whose market connection exists but whose
socket is nil (mid-reconnect) returns the send error from `UnsubscribeMarket`
and leaves the tracked subscription — whose assets_ids contains "A" ∈ S —
in place, contrary to the claim's unconditional removal. -/
theorem C10_counterexample :
    UnsubscribeMarket
        (some ⟨false, [⟨"market", "subscribe", ["A"], [], some true, none⟩]⟩) ["A"] =
      (.error "ws: not connected",
        some ⟨false, [⟨"market", "subscribe", ["A"], [], some true, none⟩]⟩) ∧
    (⟨"market", "subscribe", ["A"], [], some true, none⟩ : SubscriptionRequest) ∈
      [(⟨"market", "subscribe", ["A"], [], some true, none⟩ : SubscriptionRequest)] ∧
    "A" ∈ [("A" : String)] := by
  refine ⟨?_, by decide, by decide⟩
  decide

/-- C10 (amended): when the market connection exists and the unsubscribe send
succeeds (socket present), every tracked subscription sharing at least one
asset ID with `S` is removed in its entirety (including multi-asset
subscriptions only partially covered by `S`), every subscription disjoint
from `S` is kept (in order, unchanged); when the connection does not exist
the call returns nil and changes nothing; when the send fails the error is
returned and the tracked list is unchanged. -/
theorem C10_unsubscribeMarket (conn : Option WsConn) (ids : List String) :
    (conn = none → UnsubscribeMarket conn ids = (.ok (), none)) ∧
    (∀ c, conn = some c → c.sockPresent = true →
      UnsubscribeMarket conn ids =
        (.ok (), some ⟨c.sockPresent,
          c.subs.filter (fun sub => !sub.AssetsIDs.any (fun id => ids.contains id))⟩) ∧
      (∀ req ∈ c.subs, (∃ a ∈ req.AssetsIDs, a ∈ ids) →
        req ∉ c.subs.filter (fun sub => !sub.AssetsIDs.any (fun id => ids.contains id))) ∧
      (∀ req ∈ c.subs, (∀ a ∈ req.AssetsIDs, a ∉ ids) →
        req ∈ c.subs.filter (fun sub => !sub.AssetsIDs.any (fun id => ids.contains id)))) ∧
    (∀ c, conn = some c → c.sockPresent = false →
      UnsubscribeMarket conn ids = (.error "ws: not connected", some c)) := by
  refine ⟨?_, ?_, ?_⟩
  · rintro rfl
    rfl
  · rintro c rfl hsock
    refine ⟨?_, ?_, ?_⟩
    · unfold UnsubscribeMarket sendJSON
      simp only [hsock, reduceIte]
      rw [removeTrackedAssets_eq_filter]
    · intro req hreq hshare hmem
      have hp := List.of_mem_filter hmem
      rw [Bool.not_eq_true', List.any_eq_false] at hp
      obtain ⟨a, ha, hain⟩ := hshare
      exact absurd (by simpa using hain) (by simpa using hp a ha)
    · intro req hreq hdisj
      refine List.mem_filter.mpr ⟨hreq, ?_⟩
      rw [Bool.not_eq_true', List.any_eq_false]
      intro a ha
      simpa using hdisj a ha
  · rintro c rfl hsock
    unfold UnsubscribeMarket sendJSON
    simp [hsock]

/-- Witness for C10 (amended): removing asset "A" drops the multi-asset
subscription over \x7b"A","B"\x7d entirely and keeps the one over
\x7b"C"\x7d; a nil connection is a no-op. -/
theorem C10_unsubscribeMarket_witness :
    UnsubscribeMarket none ["A"] = (.ok (), none) ∧
    UnsubscribeMarket (some ⟨true,
        [⟨"market", "subscribe", ["A", "B"], [], some true, none⟩,
         ⟨"market", "subscribe", ["C"], [], some true, none⟩]⟩) ["A"] =
      (.ok (), some ⟨true, [⟨"market", "subscribe", ["C"], [], some true, none⟩]⟩) := by
  constructor
  · exact (C10_unsubscribeMarket none ["A"]).1 rfl
  · have h := ((C10_unsubscribeMarket (some ⟨true,
        [⟨"market", "subscribe", ["A", "B"], [], some true, none⟩,
         ⟨"market", "subscribe", ["C"], [], some true, none⟩]⟩) ["A"]).2.1
        ⟨true, [⟨"market", "subscribe", ["A", "B"], [], some true, none⟩,
         ⟨"market", "subscribe", ["C"], [], some true, none⟩]⟩ rfl rfl).1
    rw [h]
    decide

end Clob
